import Mathlib

/-!
Verification of the GPU resource cache-access gate
(src/src/gpu/GrGpuResourceCacheAccess.h) and of the pixel-transfer protocol
exercised by src/tests/TransferPixelsTest.cpp, as a shallow embedding.
Pure functions of the C++ source are translated into Lean functions; the
stateful gate operations are translated into explicit state passing on a
resource state record.  Parts of the repository that are referenced but not
present under src/ (GrGpuResource.h, GrColor.h, GrGpu::transferPixels,
GrGpu::readPixels) are modelled from the spec, as flagged in their doc
comments.
-/

/-- Modelled from the spec: `lifecycleMode: enum {Owned, Wrapped}`
(GrGpuResource.h is not in src/; the gate's `isWrapped` compares against
`GrGpuResource::kWrapped_LifeCycle`). -/
inductive LifeCycle where
  | kOwned_LifeCycle
  | kWrapped_LifeCycle
  deriving DecidableEq, Repr

/-- The state of a `GrGpuResource` that the cache-access gate touches.
Fields follow the spec's data model (GrGpuResource.h itself is not in src/):
`fRefCnt` counts external holders; the keys are optional; `fReleased` /
`fAbandoned` record that the normal teardown hook resp. the device-lost
teardown hook has run; `fDriverCalls` counts driver calls issued by
teardown hooks (the abandon hook must not issue any). -/
structure GrGpuResource where
  fRefCnt : Nat
  fContentKey : Option Nat
  fScratchKey : Option Nat
  fBudgeted : Bool
  fLifeCycle : LifeCycle
  fTimestamp : Nat
  fCacheArrayIndex : Int
  fReleased : Bool
  fAbandoned : Bool
  fDriverCalls : Nat
  deriving DecidableEq, Repr

/-- Modelled from the spec: key validity — an optional key is valid exactly
when it is present. -/
def keyIsValid (k : Option Nat) : Bool := k.isSome

/-- Accessor mirrored from `fResource->getContentKey()`. -/
def GrGpuResource.getContentKey (r : GrGpuResource) : Option Nat := r.fContentKey

/-- Modelled from the spec: `budgeted: bool — counts against the cache's
memory budget` (`resourcePriv().isBudgeted()` is not in src/). -/
def GrGpuResource.isBudgeted (r : GrGpuResource) : Bool := r.fBudgeted

/-- Modelled from the spec: `Purgeable: has zero external holders`
(GrGpuResource.h is not in src/). -/
def GrGpuResource.isPurgeable (r : GrGpuResource) : Bool := r.fRefCnt == 0

/-- Modelled from the spec: the resource's normal release hook "returns any
real GPU allocation to the device/driver or to a pool" — a driver call —
and marks the resource released.  It does not touch the external holders. -/
def GrGpuResource.release (r : GrGpuResource) : GrGpuResource :=
  { r with fReleased := true, fDriverCalls := r.fDriverCalls + 1 }

/-- Modelled from the spec: the resource's device-lost hook, which "must not
attempt any driver call"; it only marks the resource abandoned. -/
def GrGpuResource.abandon (r : GrGpuResource) : GrGpuResource :=
  { r with fAbandoned := true }

namespace CacheAccess

/-- Result of a destructive gate call: the resource state after the teardown
hook ran, and whether `SkDELETE(fResource)` was executed. -/
structure GateResult where
  resource : GrGpuResource
  destroyed : Bool
  deriving DecidableEq, Repr

/-- `GrGpuResource::CacheAccess::isScratch` (GrGpuResourceCacheAccess.h lines
28-31): no valid content key, a valid scratch key, and budgeted. -/
def isScratch (r : GrGpuResource) : Bool :=
  !(keyIsValid r.getContentKey) && keyIsValid r.fScratchKey && r.isBudgeted

/-- `GrGpuResource::CacheAccess::isWrapped` (GrGpuResourceCacheAccess.h line
36). -/
def isWrapped (r : GrGpuResource) : Bool :=
  LifeCycle.kWrapped_LifeCycle == r.fLifeCycle

/-- `GrGpuResource::CacheAccess::release` (GrGpuResourceCacheAccess.h lines
41-46): run the resource's release hook, then delete the object iff it is
purgeable at that moment. -/
def release (r : GrGpuResource) : GateResult :=
  let r1 := r.release
  { resource := r1, destroyed := r1.isPurgeable }

/-- `GrGpuResource::CacheAccess::abandon` (GrGpuResourceCacheAccess.h lines
51-56): run the resource's device-lost hook, then delete the object iff it
is purgeable at that moment. -/
def abandon (r : GrGpuResource) : GateResult :=
  let r1 := r.abandon
  { resource := r1, destroyed := r1.isPurgeable }

/-- `GrGpuResource::CacheAccess::timestamp` (GrGpuResourceCacheAccess.h line
58). -/
def timestamp (r : GrGpuResource) : Nat := r.fTimestamp

/-- `GrGpuResource::CacheAccess::setTimestamp` (GrGpuResourceCacheAccess.h
line 59). -/
def setTimestamp (r : GrGpuResource) (ts : Nat) : GrGpuResource :=
  { r with fTimestamp := ts }

end CacheAccess

/-- Claim C1: a resource object is destroyed by a gate call iff
`isPurgeable` holds at the moment the gate's `release()` or `abandon()`
runs, i.e. immediately after the teardown hook; since neither hook changes
the external holder count, this equals purgeability at entry, and a
non-purgeable resource is never deleted by the gate. -/
theorem gate_destroys_iff_purgeable (r : GrGpuResource) :
    (CacheAccess.release r).destroyed = (GrGpuResource.release r).isPurgeable ∧
    (CacheAccess.abandon r).destroyed = (GrGpuResource.abandon r).isPurgeable ∧
    (CacheAccess.release r).destroyed = r.isPurgeable ∧
    (CacheAccess.abandon r).destroyed = r.isPurgeable := by
  refine ⟨rfl, rfl, rfl, rfl⟩

/-- Claim C2: `isScratch` is the conjunction of (no valid content key),
(valid scratch key) and (budgeted); being a pure function of the primary
fields it is never stored, and it is unchanged by the gate operations that
touch other fields (timestamp updates, the teardown hooks). -/
theorem isScratch_characterization (r : GrGpuResource) :
    (CacheAccess.isScratch r = true ↔
      (keyIsValid r.getContentKey = false ∧ keyIsValid r.fScratchKey = true ∧
        r.isBudgeted = true)) ∧
    (∀ ts, CacheAccess.isScratch (CacheAccess.setTimestamp r ts) =
      CacheAccess.isScratch r) ∧
    CacheAccess.isScratch (GrGpuResource.release r) = CacheAccess.isScratch r ∧
    CacheAccess.isScratch (GrGpuResource.abandon r) = CacheAccess.isScratch r := by
  refine ⟨?_, fun ts => rfl, rfl, rfl⟩
  simp [CacheAccess.isScratch, Bool.and_eq_true, Bool.not_eq_true', and_assoc]

/-- Claim C7: `abandon()` invokes the device-lost hook and never the normal
release hook, the device-lost hook issues no driver call, and the same
purgeability-gated destruction rule as `release()` applies. -/
theorem abandon_uses_device_lost_hook (r : GrGpuResource) :
    (CacheAccess.abandon r).resource.fAbandoned = true ∧
    (CacheAccess.abandon r).resource.fReleased = r.fReleased ∧
    (CacheAccess.abandon r).resource.fDriverCalls = r.fDriverCalls ∧
    (CacheAccess.abandon r).destroyed = (GrGpuResource.abandon r).isPurgeable ∧
    (CacheAccess.abandon r).destroyed = r.isPurgeable := by
  refine ⟨rfl, rfl, rfl, rfl, rfl⟩

/-- A 32-bit packed color, one byte per channel, kept as a `Nat` below
`2 ^ 32`. -/
abbrev GrColor := Nat

/-- Modelled from the spec: 4-channel 8-bit packed color construction
(GrColor.h is not in src/): red in bits 0-7, green in 8-15, blue in 16-23,
alpha in 24-31; each channel argument is taken mod 256 as an 8-bit byte. -/
def GrColorPackRGBA (r g b a : Nat) : GrColor :=
  r % 256 + (g % 256) * 2 ^ 8 + (b % 256) * 2 ^ 16 + (a % 256) * 2 ^ 24

/-- The two vertical origin conventions of GrTypes.h. -/
inductive GrSurfaceOrigin where
  | kTopLeft_GrSurfaceOrigin
  | kBottomLeft_GrSurfaceOrigin
  deriving DecidableEq, BEq, Repr

/-- `fill_transfer_data` from src/tests/TransferPixelsTest.cpp (lines 25-37):
builds a red-green gradient over the rectangle `[left, left+width) x
[top, top+height)` of a flat `GrColor` memory with row stride `bufferWidth`.
The C code computes each ramp in single-precision float,
`(unsigned)(256.f * ((i - left) / (float)width))`; it is embedded here in
exact integer arithmetic, `256 * (i - left) / width`, which has the same
floor semantics, and the C clamp `red - (red >> 8)` is kept verbatim.
Buffers are total functions `Nat → GrColor` indexed like the C arrays. -/
def fill_transfer_data (left top width height bufferWidth : Nat)
    (data : Nat → GrColor) : Nat → GrColor :=
  (List.range height).foldl
    (fun d j0 =>
      (List.range width).foldl
        (fun d i0 =>
          let i := left + i0
          let j := top + j0
          let red := 256 * (i - left) / width
          let green := 256 * (j - top) / height
          Function.update d (i + j * bufferWidth)
            (GrColorPackRGBA (red - (red >>> 8)) (green - (green >>> 8)) 0xff 0xff))
        d)
    data

/-- `does_full_buffer_contain_correct_values` from
src/tests/TransferPixelsTest.cpp (lines 39-61): compares the `width x height`
rectangle of `srcBuffer` (walked top-down) against `dstBuffer`, walked
top-down for a top-left origin and bottom-up — starting at row
`bufferHeight - 1` and stepping `-bufferWidth` — for a bottom-left origin.
The C pointer arithmetic on `dstPtr` is carried in `Int` and the flat
`Nat`-addressed memory is dereferenced through `Int.toNat`. -/
def does_full_buffer_contain_correct_values (srcBuffer dstBuffer : Nat → GrColor)
    (width height bufferWidth bufferHeight : Nat) (origin : GrSurfaceOrigin) : Bool :=
  let bottomUp : Bool := GrSurfaceOrigin.kBottomLeft_GrSurfaceOrigin == origin
  let dstStart : Int :=
    if bottomUp then (bufferWidth : Int) * ((bufferHeight : Int) - 1) else 0
  let dstIncrement : Int :=
    if bottomUp then -(bufferWidth : Int) else (bufferWidth : Int)
  (List.range height).all fun j =>
    (List.range width).all fun i =>
      srcBuffer (j * bufferWidth + i) ==
        dstBuffer (dstStart + (j : Int) * dstIncrement + (i : Int)).toNat

/-- Modelled from the spec: a GPU texture as a grid of pixels stored in
physical row order, row 0 first (GrTexture is not in src/). -/
structure Texture where
  width : Nat
  height : Nat
  pixels : Nat → Nat → GrColor

/-- Modelled from the spec: `transferPixels(texture, x, y, width, height,
colorFormat, buffer, bufferOffsetBytes, rowBytes)` — GrGpu::transferPixels is
not in src/.  Offsets and strides are in `GrColor` (pixel) units rather than
bytes, and `caps` says whether the target format accepts a
mapped-buffer-sourced transfer.  Copies `height` rows of `width` pixels,
reading from `buffer` at `bufferOffset`, advancing `rowPitch` per row, into
the texture sub-rectangle at `(x, y)`; returns `none` (the C `false`, with
the texture unchanged) on a capability miss or when the rectangle lies
outside the texture bounds. -/
def transferPixels (caps : Bool) (tex : Texture) (x y width height : Nat)
    (buffer : Nat → GrColor) (bufferOffset rowPitch : Nat) : Option Texture :=
  if caps = true ∧ x + width ≤ tex.width ∧ y + height ≤ tex.height then
    some { tex with
      pixels := fun r c =>
        if y ≤ r ∧ r < y + height ∧ x ≤ c ∧ c < x + width then
          buffer (bufferOffset + (r - y) * rowPitch + (c - x))
        else tex.pixels r c }
  else none

/-- Modelled from the spec: `readPixels(texture, origin, x, y, width, height,
colorFormat, outBuffer, rowBytes)` — GrGpu::readPixels is not in src/.  The
output buffer is written top-down, logical row `j` at flat offset
`j * rowPitch`, regardless of origin; with a bottom-up texture logical row
`j` is sourced from physical row `textureHeight - 1 - (y + j)`, with a
top-down texture from physical row `y + j`.  Entries of `dst` outside the
written rectangle keep their previous values.  Returns `none` (the C
`false`) when the rectangle lies outside the texture bounds. -/
def readPixels (tex : Texture) (origin : GrSurfaceOrigin) (x y width height : Nat)
    (dst : Nat → GrColor) (rowPitch : Nat) : Option (Nat → GrColor) :=
  if x + width ≤ tex.width ∧ y + height ≤ tex.height then
    some fun idx =>
      if idx % rowPitch < width ∧ idx / rowPitch < height then
        tex.pixels
          (match origin with
           | GrSurfaceOrigin.kTopLeft_GrSurfaceOrigin => y + idx / rowPitch
           | GrSurfaceOrigin.kBottomLeft_GrSurfaceOrigin =>
               tex.height - 1 - (y + idx / rowPitch))
          (x + idx % rowPitch)
      else dst idx
  else none

theorem beq_bottomLeft_topLeft :
    (GrSurfaceOrigin.kBottomLeft_GrSurfaceOrigin ==
      GrSurfaceOrigin.kTopLeft_GrSurfaceOrigin) = false := rfl

theorem beq_bottomLeft_bottomLeft :
    (GrSurfaceOrigin.kBottomLeft_GrSurfaceOrigin ==
      GrSurfaceOrigin.kBottomLeft_GrSurfaceOrigin) = true := rfl

theorem topLeft_index (bufferWidth j i : Nat) :
    ((0 : Int) + (j : Int) * (bufferWidth : Int) + (i : Int)).toNat =
      j * bufferWidth + i := by
  have h1 : ((0 : Int) + (j : Int) * (bufferWidth : Int) + (i : Int)) =
      ((j * bufferWidth + i : Nat) : Int) := by push_cast; ring
  rw [h1, Int.toNat_natCast]

theorem bottomLeft_index (bufferWidth bufferHeight j i : Nat)
    (hj : j < bufferHeight) :
    ((bufferWidth : Int) * ((bufferHeight : Int) - 1) +
        (j : Int) * (-(bufferWidth : Int)) + (i : Int)).toNat =
      (bufferHeight - 1 - j) * bufferWidth + i := by
  have hb1 : (1 : Nat) ≤ bufferHeight := by omega
  have hjb : j ≤ bufferHeight - 1 := by omega
  have h1 : ((bufferWidth : Int) * ((bufferHeight : Int) - 1) +
      (j : Int) * (-(bufferWidth : Int)) + (i : Int)) =
      (((bufferHeight - 1 - j) * bufferWidth + i : Nat) : Int) := by
    push_cast [Nat.cast_sub hjb, Nat.cast_sub hb1]
    ring
  rw [h1, Int.toNat_natCast]

/-- Characterization of `does_full_buffer_contain_correct_values`: it is
true iff every in-rectangle source pixel equals the destination pixel at
the same row for a top-left origin, and at the row mirrored about
`bufferHeight` for a bottom-left origin. -/
theorem does_full_buffer_iff (srcBuffer dstBuffer : Nat → GrColor)
    (width height bufferWidth bufferHeight : Nat) (origin : GrSurfaceOrigin)
    (hh : height ≤ bufferHeight) :
    does_full_buffer_contain_correct_values srcBuffer dstBuffer width height
        bufferWidth bufferHeight origin = true ↔
      ∀ i j, i < width → j < height →
        srcBuffer (j * bufferWidth + i) =
          match origin with
          | GrSurfaceOrigin.kTopLeft_GrSurfaceOrigin =>
              dstBuffer (j * bufferWidth + i)
          | GrSurfaceOrigin.kBottomLeft_GrSurfaceOrigin =>
              dstBuffer ((bufferHeight - 1 - j) * bufferWidth + i) := by
  cases origin with
  | kTopLeft_GrSurfaceOrigin =>
    simp only [does_full_buffer_contain_correct_values, beq_bottomLeft_topLeft,
      Bool.false_eq_true, if_false, List.all_eq_true, List.mem_range, beq_iff_eq]
    constructor
    · intro h i j hi hj
      have h2 := h j hj i hi
      rwa [topLeft_index bufferWidth j i] at h2
    · intro h j hj i hi
      rw [topLeft_index bufferWidth j i]
      exact h i j hi hj
  | kBottomLeft_GrSurfaceOrigin =>
    simp only [does_full_buffer_contain_correct_values, beq_bottomLeft_bottomLeft,
      if_true, List.all_eq_true, List.mem_range, beq_iff_eq]
    constructor
    · intro h i j hi hj
      have h2 := h j hj i hi
      rwa [bottomLeft_index bufferWidth bufferHeight j i (by omega)] at h2
    · intro h j hj i hi
      rw [bottomLeft_index bufferWidth bufferHeight j i (by omega)]
      exact h i j hi hj

/-- Claim C9: `does_full_buffer_contain_correct_values` returns true iff for
every (i, j) in the rectangle, `src[j*bufferWidth + i]` equals
`dst[j*bufferWidth + i]` for a top-left origin and
`dst[(bufferHeight - 1 - j)*bufferWidth + i]` for a bottom-left origin;
entries outside the rectangle never influence the result, and the
bottom-up mirror is anchored at `bufferHeight`, the buffer's own height
(the texture's height does not appear in the function at all).  The rows
walked must fit the buffer (`height ≤ bufferHeight`) for the C pointer
arithmetic to stay inside the allocation. -/
theorem does_full_buffer_contain_correct_values_spec
    (srcBuffer dstBuffer : Nat → GrColor)
    (width height bufferWidth bufferHeight : Nat) (origin : GrSurfaceOrigin)
    (hh : height ≤ bufferHeight) :
    does_full_buffer_contain_correct_values srcBuffer dstBuffer width height
        bufferWidth bufferHeight origin = true ↔
      ∀ i j, i < width → j < height →
        srcBuffer (j * bufferWidth + i) =
          match origin with
          | GrSurfaceOrigin.kTopLeft_GrSurfaceOrigin =>
              dstBuffer (j * bufferWidth + i)
          | GrSurfaceOrigin.kBottomLeft_GrSurfaceOrigin =>
              dstBuffer ((bufferHeight - 1 - j) * bufferWidth + i) :=
  does_full_buffer_iff srcBuffer dstBuffer width height bufferWidth bufferHeight
    origin hh

/-- Witness for C9 at a concrete input: a constant buffer compared against
itself with a bottom-left origin. -/
theorem does_full_buffer_contain_correct_values_spec_witness :
    (2 : Nat) ≤ 3 ∧
      (does_full_buffer_contain_correct_values (fun _ => 1) (fun _ => 1) 2 2 4 3
          GrSurfaceOrigin.kBottomLeft_GrSurfaceOrigin = true ↔
        ∀ i j, i < 2 → j < 2 →
          (fun _ => (1 : GrColor)) (j * 4 + i) =
            (fun _ => (1 : GrColor)) ((3 - 1 - j) * 4 + i)) :=
  ⟨by decide,
    does_full_buffer_contain_correct_values_spec (fun _ => 1) (fun _ => 1) 2 2 4 3
      GrSurfaceOrigin.kBottomLeft_GrSurfaceOrigin (by decide)⟩

theorem foldl_update_of_not_mem (l : List Nat) (key : Nat → Nat)
    (val : Nat → GrColor) (d : Nat → GrColor) (idx : Nat)
    (h : ∀ k ∈ l, key k ≠ idx) :
    l.foldl (fun d k => Function.update d (key k) (val k)) d idx = d idx := by
  induction l generalizing d with
  | nil => rfl
  | cons a t ih =>
    rw [List.foldl_cons, ih _ fun k hk => h k (List.mem_cons_of_mem a hk)]
    exact Function.update_noteq (Ne.symm (h a (List.mem_cons_self a t))) (val a) d

theorem foldl_update_establish (P : GrColor → Prop) (l : List Nat)
    (key : Nat → Nat) (val : Nat → GrColor) (d : Nat → GrColor) (idx : Nat)
    (hval : ∀ k ∈ l, P (val k))
    (h : P (d idx) ∨ ∃ k ∈ l, key k = idx) :
    P (l.foldl (fun d k => Function.update d (key k) (val k)) d idx) := by
  induction l generalizing d with
  | nil =>
    rcases h with h | ⟨k, hk, _⟩
    · exact h
    · exact absurd hk (List.not_mem_nil k)
  | cons a t ih =>
    rw [List.foldl_cons]
    refine ih _ (fun k hk => hval k (List.mem_cons_of_mem a hk)) ?_
    by_cases hke : key a = idx
    · left
      rw [← hke, Function.update_same]
      exact hval a (List.mem_cons_self a t)
    · rcases h with hP | ⟨k, hk, hkey⟩
      · left
        rw [Function.update_noteq (Ne.symm hke)]
        exact hP
      · rcases List.mem_cons.mp hk with rfl | hkt
        · exact absurd hkey hke
        · exact Or.inr ⟨k, hkt, hkey⟩

theorem foldl_step_preserve {β : Type} (l : List β)
    (step : (Nat → GrColor) → β → Nat → GrColor) (d : Nat → GrColor) (idx : Nat)
    (h : ∀ d b, b ∈ l → step d b idx = d idx) :
    l.foldl step d idx = d idx := by
  induction l generalizing d with
  | nil => rfl
  | cons a t ih =>
    rw [List.foldl_cons, ih _ fun d b hb => h d b (List.mem_cons_of_mem a hb)]
    exact h d a (List.mem_cons_self a t)

theorem foldl_step_establish {β : Type} (P : GrColor → Prop) (l : List β)
    (step : (Nat → GrColor) → β → Nat → GrColor) (d : Nat → GrColor) (idx : Nat)
    (hpres : ∀ d b, b ∈ l → P (d idx) → P (step d b idx))
    (h : P (d idx) ∨ ∃ b ∈ l, ∀ d2, P (step d2 b idx)) :
    P (l.foldl step d idx) := by
  induction l generalizing d with
  | nil =>
    rcases h with h | ⟨b, hb, _⟩
    · exact h
    · exact absurd hb (List.not_mem_nil b)
  | cons a t ih =>
    rw [List.foldl_cons]
    refine ih _ (fun d2 b hb => hpres d2 b (List.mem_cons_of_mem a hb)) ?_
    rcases h with hP | ⟨b, hb, hstep⟩
    · exact Or.inl (hpres d a (List.mem_cons_self a t) hP)
    · rcases List.mem_cons.mp hb with rfl | hbt
      · exact Or.inl (hstep d)
      · exact Or.inr ⟨b, hbt, hstep⟩

theorem gradient_channel_le (width k : Nat) (hk : k < width) :
    256 * k / width - ((256 * k / width) >>> 8) ≤ 255 := by
  have hw : 0 < width := by omega
  have h1 : 256 * k / width < 256 := by
    rw [Nat.div_lt_iff_lt_mul hw]
    omega
  have h2 : (256 * k / width) >>> 8 = 0 := by
    rw [Nat.shiftRight_eq_div_pow]
    have h256 : (2 : Nat) ^ 8 = 256 := by norm_num
    rw [h256]
    exact Nat.div_eq_of_lt h1
  omega

theorem gradient_val_pixel (left top width height k j0 : Nat)
    (hk : k < width) (hj0 : j0 < height) :
    ∃ red green, red ≤ 255 ∧ green ≤ 255 ∧
      GrColorPackRGBA
        (256 * (left + k - left) / width -
          ((256 * (left + k - left) / width) >>> 8))
        (256 * (top + j0 - top) / height -
          ((256 * (top + j0 - top) / height) >>> 8))
        0xff 0xff
      = GrColorPackRGBA red green 0xff 0xff := by
  rw [Nat.add_sub_cancel_left, Nat.add_sub_cancel_left]
  exact ⟨_, _, gradient_channel_le width k hk, gradient_channel_le height j0 hj0,
    rfl⟩

/-- Claim C10: `fill_transfer_data` writes exactly the entries
`data[i + j*bufferWidth]` with `left ≤ i < left+width` and
`top ≤ j < top+height` — all other entries are unchanged — and every
written pixel is a packed color whose blue and alpha bytes are `0xff` and
whose red and green values lie in 0..255. -/
theorem fill_transfer_data_spec (left top width height bufferWidth : Nat)
    (data : Nat → GrColor) (hw : 0 < width) (hh : 0 < height) :
    (∀ idx,
      (∀ i j, left ≤ i → i < left + width → top ≤ j → j < top + height →
        idx ≠ i + j * bufferWidth) →
      fill_transfer_data left top width height bufferWidth data idx = data idx) ∧
    (∀ i j, left ≤ i → i < left + width → top ≤ j → j < top + height →
      ∃ red green, red ≤ 255 ∧ green ≤ 255 ∧
        fill_transfer_data left top width height bufferWidth data
            (i + j * bufferWidth) =
          GrColorPackRGBA red green 0xff 0xff) := by
  constructor
  · intro idx hmiss
    unfold fill_transfer_data
    refine foldl_step_preserve (List.range height) _ data idx ?_
    intro d j0 hj0
    rw [List.mem_range] at hj0
    refine foldl_update_of_not_mem (List.range width)
      (fun i0 => left + i0 + (top + j0) * bufferWidth)
      (fun i0 => GrColorPackRGBA
        (256 * (left + i0 - left) / width -
          ((256 * (left + i0 - left) / width) >>> 8))
        (256 * (top + j0 - top) / height -
          ((256 * (top + j0 - top) / height) >>> 8))
        0xff 0xff)
      d idx ?_
    intro k hk
    rw [List.mem_range] at hk
    intro he
    exact hmiss (left + k) (top + j0) (by omega) (by omega) (by omega) (by omega)
      he.symm
  · intro i j hil hiw hjt hjh
    unfold fill_transfer_data
    refine foldl_step_establish
      (fun v => ∃ red green, red ≤ 255 ∧ green ≤ 255 ∧
        v = GrColorPackRGBA red green 0xff 0xff)
      (List.range height) _ data (i + j * bufferWidth) ?_ ?_
    · intro d j0 hj0 hPd
      rw [List.mem_range] at hj0
      refine foldl_update_establish
        (fun v => ∃ red green, red ≤ 255 ∧ green ≤ 255 ∧
          v = GrColorPackRGBA red green 0xff 0xff)
        (List.range width)
        (fun i0 => left + i0 + (top + j0) * bufferWidth)
        (fun i0 => GrColorPackRGBA
          (256 * (left + i0 - left) / width -
            ((256 * (left + i0 - left) / width) >>> 8))
          (256 * (top + j0 - top) / height -
            ((256 * (top + j0 - top) / height) >>> 8))
          0xff 0xff)
        d (i + j * bufferWidth) ?_ (Or.inl hPd)
      intro k hk
      rw [List.mem_range] at hk
      exact gradient_val_pixel left top width height k j0 hk hj0
    · refine Or.inr ⟨j - top, List.mem_range.mpr (by omega), ?_⟩
      intro d2
      refine foldl_update_establish
        (fun v => ∃ red green, red ≤ 255 ∧ green ≤ 255 ∧
          v = GrColorPackRGBA red green 0xff 0xff)
        (List.range width)
        (fun i0 => left + i0 + (top + (j - top)) * bufferWidth)
        (fun i0 => GrColorPackRGBA
          (256 * (left + i0 - left) / width -
            ((256 * (left + i0 - left) / width) >>> 8))
          (256 * (top + (j - top) - top) / height -
            ((256 * (top + (j - top) - top) / height) >>> 8))
          0xff 0xff)
        d2 (i + j * bufferWidth) ?_ ?_
      · intro k hk
        rw [List.mem_range] at hk
        exact gradient_val_pixel left top width height k (j - top) hk (by omega)
      · refine Or.inr ⟨i - left, List.mem_range.mpr (by omega), ?_⟩
        show left + (i - left) + (top + (j - top)) * bufferWidth =
          i + j * bufferWidth
        have e1 : left + (i - left) = i := by omega
        have e2 : top + (j - top) = j := by omega
        rw [e1, e2]

/-- Witness for C10 at a concrete input. -/
theorem fill_transfer_data_spec_witness :
    (0 : Nat) < 2 ∧ (0 : Nat) < 2 ∧
      ((∀ idx,
        (∀ i j, 1 ≤ i → i < 1 + 2 → 2 ≤ j → j < 2 + 2 → idx ≠ i + j * 5) →
        fill_transfer_data 1 2 2 2 5 (fun _ => 9) idx = (fun _ => (9 : GrColor)) idx) ∧
      (∀ i j, 1 ≤ i → i < 1 + 2 → 2 ≤ j → j < 2 + 2 →
        ∃ red green, red ≤ 255 ∧ green ≤ 255 ∧
          fill_transfer_data 1 2 2 2 5 (fun _ => 9) (i + j * 5) =
            GrColorPackRGBA red green 0xff 0xff)) :=
  ⟨by decide, by decide,
    fill_transfer_data_spec 1 2 2 2 5 (fun _ => 9) (by decide) (by decide)⟩

theorem row_index_mod (j i rowPitch : Nat) (hi : i < rowPitch) :
    (j * rowPitch + i) % rowPitch = i := by
  rw [Nat.mul_comm j rowPitch, Nat.mul_add_mod]
  exact Nat.mod_eq_of_lt hi

theorem row_index_div (j i rowPitch : Nat) (hp : 0 < rowPitch)
    (hi : i < rowPitch) :
    (j * rowPitch + i) / rowPitch = j := by
  rw [Nat.mul_comm, Nat.mul_add_div hp, Nat.div_eq_of_lt hi, Nat.add_zero]

/-- A successful `transferPixels` call: the texture dimensions are kept,
in-rectangle pixels take the buffer values, out-of-rectangle pixels are
untouched. -/
theorem transferPixels_char (tex : Texture) (x y width height : Nat)
    (buffer : Nat → GrColor) (offset rowPitch : Nat)
    (hx : x + width ≤ tex.width) (hy : y + height ≤ tex.height) :
    ∃ tex1,
      transferPixels true tex x y width height buffer offset rowPitch =
        some tex1 ∧
      tex1.width = tex.width ∧ tex1.height = tex.height ∧
      ∀ r c,
        (y ≤ r ∧ r < y + height ∧ x ≤ c ∧ c < x + width →
          tex1.pixels r c = buffer (offset + (r - y) * rowPitch + (c - x))) ∧
        (¬(y ≤ r ∧ r < y + height ∧ x ≤ c ∧ c < x + width) →
          tex1.pixels r c = tex.pixels r c) := by
  refine ⟨{ tex with
      pixels := fun r c =>
        if y ≤ r ∧ r < y + height ∧ x ≤ c ∧ c < x + width then
          buffer (offset + (r - y) * rowPitch + (c - x))
        else tex.pixels r c }, ?_, rfl, rfl, ?_⟩
  · unfold transferPixels
    rw [if_pos ⟨rfl, hx, hy⟩]
  · intro r c
    exact ⟨fun h => if_pos h, fun h => if_neg h⟩

/-- A successful `readPixels` call: in-rectangle destination entries take
the origin-mapped texture pixels, all other entries keep their previous
values. -/
theorem readPixels_char (tex : Texture) (origin : GrSurfaceOrigin)
    (x y width height : Nat) (dst0 : Nat → GrColor) (rowPitch : Nat)
    (hx : x + width ≤ tex.width) (hy : y + height ≤ tex.height) :
    ∃ dst, readPixels tex origin x y width height dst0 rowPitch = some dst ∧
      ∀ idx,
        (idx % rowPitch < width ∧ idx / rowPitch < height →
          dst idx = tex.pixels
            (match origin with
             | GrSurfaceOrigin.kTopLeft_GrSurfaceOrigin => y + idx / rowPitch
             | GrSurfaceOrigin.kBottomLeft_GrSurfaceOrigin =>
                 tex.height - 1 - (y + idx / rowPitch))
            (x + idx % rowPitch)) ∧
        (¬(idx % rowPitch < width ∧ idx / rowPitch < height) →
          dst idx = dst0 idx) := by
  refine ⟨fun idx =>
    if idx % rowPitch < width ∧ idx / rowPitch < height then
      tex.pixels
        (match origin with
         | GrSurfaceOrigin.kTopLeft_GrSurfaceOrigin => y + idx / rowPitch
         | GrSurfaceOrigin.kBottomLeft_GrSurfaceOrigin =>
             tex.height - 1 - (y + idx / rowPitch))
        (x + idx % rowPitch)
    else dst0 idx, ?_, ?_⟩
  · unfold readPixels
    rw [if_pos ⟨hx, hy⟩]
  · intro idx
    exact ⟨fun h => if_pos h, fun h => if_neg h⟩

/-- Claim C3: uploading a full-rectangle gradient buffer with
`transferPixels` and reading it back with `readPixels` under the matching
origin convention yields byte-identical pixels on the whole rectangle, as
checked by the repository's own verification function. -/
theorem transfer_readPixels_roundtrip (tex0 : Texture) (origin : GrSurfaceOrigin)
    (bufferWidth bufferHeight : Nat) (data0 dst0 : Nat → GrColor)
    (hbw : tex0.width ≤ bufferWidth) (hbh : tex0.height = bufferHeight)
    (hbw0 : 0 < bufferWidth) :
    ∃ tex1 dst,
      transferPixels true tex0 0 0 tex0.width tex0.height
          (fill_transfer_data 0 0 tex0.width tex0.height bufferWidth data0)
          0 bufferWidth = some tex1 ∧
      readPixels tex1 origin 0 0 tex0.width tex0.height dst0 bufferWidth =
        some dst ∧
      does_full_buffer_contain_correct_values
          (fill_transfer_data 0 0 tex0.width tex0.height bufferWidth data0) dst
          tex0.width tex0.height bufferWidth bufferHeight origin = true := by
  obtain ⟨tex1, h1, hW, hH, hpix⟩ :=
    transferPixels_char tex0 0 0 tex0.width tex0.height
      (fill_transfer_data 0 0 tex0.width tex0.height bufferWidth data0) 0
      bufferWidth (by omega) (by omega)
  obtain ⟨dst, h2, hdst⟩ :=
    readPixels_char tex1 origin 0 0 tex0.width tex0.height dst0 bufferWidth
      (by omega) (by omega)
  refine ⟨tex1, dst, h1, h2, ?_⟩
  rw [does_full_buffer_iff _ _ _ _ _ _ _ (by omega)]
  intro i j hi hj
  have hmod := row_index_mod j i bufferWidth (lt_of_lt_of_le hi hbw)
  have hdiv := row_index_div j i bufferWidth hbw0 (lt_of_lt_of_le hi hbw)
  cases origin with
  | kTopLeft_GrSurfaceOrigin =>
    show fill_transfer_data 0 0 tex0.width tex0.height bufferWidth data0
        (j * bufferWidth + i) = dst (j * bufferWidth + i)
    have hd : dst (j * bufferWidth + i) =
        tex1.pixels (0 + (j * bufferWidth + i) / bufferWidth)
          (0 + (j * bufferWidth + i) % bufferWidth) :=
      (hdst _).1 ⟨by rw [hmod]; exact hi, by rw [hdiv]; exact hj⟩
    rw [hmod, hdiv] at hd
    have hp : tex1.pixels (0 + j) (0 + i) =
        fill_transfer_data 0 0 tex0.width tex0.height bufferWidth data0
          (0 + ((0 + j) - 0) * bufferWidth + ((0 + i) - 0)) :=
      (hpix (0 + j) (0 + i)).1 ⟨by omega, by omega, by omega, by omega⟩
    rw [hd, hp]
    congr 1
    simp
  | kBottomLeft_GrSurfaceOrigin =>
    show fill_transfer_data 0 0 tex0.width tex0.height bufferWidth data0
        (j * bufferWidth + i) =
      dst ((bufferHeight - 1 - j) * bufferWidth + i)
    have hmod2 := row_index_mod (bufferHeight - 1 - j) i bufferWidth
      (lt_of_lt_of_le hi hbw)
    have hdiv2 := row_index_div (bufferHeight - 1 - j) i bufferWidth hbw0
      (lt_of_lt_of_le hi hbw)
    have hd : dst ((bufferHeight - 1 - j) * bufferWidth + i) =
        tex1.pixels
          (tex1.height - 1 -
            (0 + ((bufferHeight - 1 - j) * bufferWidth + i) / bufferWidth))
          (0 + ((bufferHeight - 1 - j) * bufferWidth + i) % bufferWidth) :=
      (hdst _).1 ⟨by rw [hmod2]; exact hi, by rw [hdiv2]; omega⟩
    rw [hmod2, hdiv2] at hd
    have hrow : tex1.height - 1 - (0 + (bufferHeight - 1 - j)) = j := by omega
    rw [hrow] at hd
    have hp : tex1.pixels j (0 + i) =
        fill_transfer_data 0 0 tex0.width tex0.height bufferWidth data0
          (0 + (j - 0) * bufferWidth + ((0 + i) - 0)) :=
      (hpix j (0 + i)).1 ⟨by omega, by omega, by omega, by omega⟩
    rw [hd, hp]
    congr 1
    simp

/-- Witness for C3 at a concrete input: a 2x2 texture, bottom-left origin,
buffer stride 3. -/
theorem transfer_readPixels_roundtrip_witness :
    (Texture.mk 2 2 fun _ _ => 0).width ≤ 3 ∧
    (Texture.mk 2 2 fun _ _ => 0).height = 2 ∧ (0 : Nat) < 3 ∧
    ∃ tex1 dst,
      transferPixels true (Texture.mk 2 2 fun _ _ => 0) 0 0 2 2
          (fill_transfer_data 0 0 2 2 3 (fun _ => 5)) 0 3 = some tex1 ∧
      readPixels tex1 GrSurfaceOrigin.kBottomLeft_GrSurfaceOrigin 0 0 2 2
          (fun _ => 7) 3 = some dst ∧
      does_full_buffer_contain_correct_values
          (fill_transfer_data 0 0 2 2 3 (fun _ => 5)) dst 2 2 3 2
          GrSurfaceOrigin.kBottomLeft_GrSurfaceOrigin = true :=
  ⟨by decide, by decide, by decide,
    transfer_readPixels_roundtrip (Texture.mk 2 2 fun _ _ => 0)
      GrSurfaceOrigin.kBottomLeft_GrSurfaceOrigin 3 2 (fun _ => 5) (fun _ => 7)
      (by decide) (by decide) (by decide)⟩

/-- Claim C4: a `readPixels` on a bottom-up texture sources logical
(top-down) output row `j` from physical row `textureHeight - 1 - j`, and
the output buffer is written top-down (logical row `j` lands at flat offset
`j * rowPitch`) regardless of the texture's origin; for a top-down texture
logical row `j` is physical row `j` (in particular row 0 is physical
row 0). -/
theorem readPixels_origin_rows (tex : Texture) (origin : GrSurfaceOrigin)
    (width height rowPitch : Nat) (dst0 : Nat → GrColor)
    (hw : width ≤ tex.width) (hh : height ≤ tex.height)
    (hwp : width ≤ rowPitch) (hp : 0 < rowPitch) :
    ∃ dst, readPixels tex origin 0 0 width height dst0 rowPitch = some dst ∧
      ∀ j i, j < height → i < width →
        dst (j * rowPitch + i) =
          match origin with
          | GrSurfaceOrigin.kTopLeft_GrSurfaceOrigin => tex.pixels j i
          | GrSurfaceOrigin.kBottomLeft_GrSurfaceOrigin =>
              tex.pixels (tex.height - 1 - j) i := by
  obtain ⟨dst, h1, hdst⟩ :=
    readPixels_char tex origin 0 0 width height dst0 rowPitch (by omega)
      (by omega)
  refine ⟨dst, h1, ?_⟩
  intro j i hj hi
  have hmod := row_index_mod j i rowPitch (lt_of_lt_of_le hi hwp)
  have hdiv := row_index_div j i rowPitch hp (lt_of_lt_of_le hi hwp)
  cases origin with
  | kTopLeft_GrSurfaceOrigin =>
    show dst (j * rowPitch + i) = tex.pixels j i
    have hd : dst (j * rowPitch + i) =
        tex.pixels (0 + (j * rowPitch + i) / rowPitch)
          (0 + (j * rowPitch + i) % rowPitch) :=
      (hdst _).1 ⟨by rw [hmod]; exact hi, by rw [hdiv]; exact hj⟩
    rw [hmod, hdiv] at hd
    simpa using hd
  | kBottomLeft_GrSurfaceOrigin =>
    show dst (j * rowPitch + i) = tex.pixels (tex.height - 1 - j) i
    have hd : dst (j * rowPitch + i) =
        tex.pixels (tex.height - 1 - (0 + (j * rowPitch + i) / rowPitch))
          (0 + (j * rowPitch + i) % rowPitch) :=
      (hdst _).1 ⟨by rw [hmod]; exact hi, by rw [hdiv]; exact hj⟩
    rw [hmod, hdiv] at hd
    simpa using hd

/-- Witness for C4 at a concrete input: a 3x3 texture read bottom-up with
stride 4. -/
theorem readPixels_origin_rows_witness :
    (2 : Nat) ≤ (Texture.mk 3 3 fun r c => r * 10 + c).width ∧
    (2 : Nat) ≤ (Texture.mk 3 3 fun r c => r * 10 + c).height ∧
    (2 : Nat) ≤ 4 ∧ (0 : Nat) < 4 ∧
    ∃ dst,
      readPixels (Texture.mk 3 3 fun r c => r * 10 + c)
          GrSurfaceOrigin.kBottomLeft_GrSurfaceOrigin 0 0 2 2 (fun _ => 0) 4 =
        some dst ∧
      ∀ j i, j < 2 → i < 2 →
        dst (j * 4 + i) = (Texture.mk 3 3 fun r c => r * 10 + c).pixels (3 - 1 - j) i :=
  ⟨by decide, by decide, by decide, by decide,
    readPixels_origin_rows (Texture.mk 3 3 fun r c => r * 10 + c)
      GrSurfaceOrigin.kBottomLeft_GrSurfaceOrigin 2 2 4 (fun _ => 0)
      (by decide) (by decide) (by decide) (by decide)⟩

/-- Claim C5: a sub-rectangle `transferPixels` changes exactly the pixels
inside the sub-rectangle — every pixel outside keeps its previous value and
every pixel inside takes the transferred buffer value — and a subsequent
full-texture read (either origin) returns the previous values outside the
sub-rectangle and the newly transferred values inside it. -/
theorem transferPixels_partial_update (tex : Texture)
    (left top width height : Nat) (buffer : Nat → GrColor)
    (offset rowPitch : Nat)
    (hx : left + width ≤ tex.width) (hy : top + height ≤ tex.height) :
    ∃ tex1,
      transferPixels true tex left top width height buffer offset rowPitch =
        some tex1 ∧
      (∀ r c, (r < top ∨ top + height ≤ r ∨ c < left ∨ left + width ≤ c) →
        tex1.pixels r c = tex.pixels r c) ∧
      (∀ r c, top ≤ r → r < top + height → left ≤ c → c < left + width →
        tex1.pixels r c = buffer (offset + (r - top) * rowPitch + (c - left))) ∧
      (∀ origin (dst0 : Nat → GrColor), tex.width ≤ rowPitch → 0 < rowPitch →
        ∃ dst,
          readPixels tex1 origin 0 0 tex.width tex.height dst0 rowPitch =
            some dst ∧
          ∀ j i, j < tex.height → i < tex.width →
            dst (j * rowPitch + i) =
              (fun pr =>
                if top ≤ pr ∧ pr < top + height ∧ left ≤ i ∧ i < left + width
                then buffer (offset + (pr - top) * rowPitch + (i - left))
                else tex.pixels pr i)
              (match origin with
               | GrSurfaceOrigin.kTopLeft_GrSurfaceOrigin => j
               | GrSurfaceOrigin.kBottomLeft_GrSurfaceOrigin =>
                   tex.height - 1 - j)) := by
  obtain ⟨tex1, h1, hW, hH, hpix⟩ :=
    transferPixels_char tex left top width height buffer offset rowPitch hx hy
  have houtside : ∀ r c,
      (r < top ∨ top + height ≤ r ∨ c < left ∨ left + width ≤ c) →
      tex1.pixels r c = tex.pixels r c := by
    intro r c hout
    exact (hpix r c).2 (by omega)
  have hinside : ∀ r c, top ≤ r → r < top + height → left ≤ c →
      c < left + width →
      tex1.pixels r c = buffer (offset + (r - top) * rowPitch + (c - left)) := by
    intro r c h1' h2' h3' h4'
    exact (hpix r c).1 ⟨h1', h2', h3', h4'⟩
  refine ⟨tex1, h1, houtside, hinside, ?_⟩
  intro origin dst0 hwp hp
  obtain ⟨dst, h2, hdst⟩ :=
    readPixels_char tex1 origin 0 0 tex.width tex.height dst0 rowPitch
      (by omega) (by omega)
  refine ⟨dst, h2, ?_⟩
  intro j i hj hi
  have hmod := row_index_mod j i rowPitch (lt_of_lt_of_le hi hwp)
  have hdiv := row_index_div j i rowPitch hp (lt_of_lt_of_le hi hwp)
  cases origin with
  | kTopLeft_GrSurfaceOrigin =>
    show dst (j * rowPitch + i) =
      if top ≤ j ∧ j < top + height ∧ left ≤ i ∧ i < left + width
      then buffer (offset + (j - top) * rowPitch + (i - left))
      else tex.pixels j i
    have hd : dst (j * rowPitch + i) =
        tex1.pixels (0 + (j * rowPitch + i) / rowPitch)
          (0 + (j * rowPitch + i) % rowPitch) :=
      (hdst _).1 ⟨by rw [hmod]; exact hi, by rw [hdiv]; exact hj⟩
    rw [hmod, hdiv] at hd
    simp only [Nat.zero_add] at hd
    rw [hd]
    by_cases hin : top ≤ j ∧ j < top + height ∧ left ≤ i ∧ i < left + width
    · rw [if_pos hin]
      exact hinside j i hin.1 hin.2.1 hin.2.2.1 hin.2.2.2
    · rw [if_neg hin]
      exact houtside j i (by omega)
  | kBottomLeft_GrSurfaceOrigin =>
    show dst (j * rowPitch + i) =
      if top ≤ tex.height - 1 - j ∧ tex.height - 1 - j < top + height ∧
          left ≤ i ∧ i < left + width
      then buffer (offset + (tex.height - 1 - j - top) * rowPitch + (i - left))
      else tex.pixels (tex.height - 1 - j) i
    have hd : dst (j * rowPitch + i) =
        tex1.pixels (tex1.height - 1 - (0 + (j * rowPitch + i) / rowPitch))
          (0 + (j * rowPitch + i) % rowPitch) :=
      (hdst _).1 ⟨by rw [hmod]; exact hi, by rw [hdiv]; exact hj⟩
    rw [hmod, hdiv] at hd
    simp only [Nat.zero_add] at hd
    rw [hH] at hd
    rw [hd]
    by_cases hin : top ≤ tex.height - 1 - j ∧ tex.height - 1 - j < top + height ∧
        left ≤ i ∧ i < left + width
    · rw [if_pos hin]
      exact hinside (tex.height - 1 - j) i hin.1 hin.2.1 hin.2.2.1 hin.2.2.2
    · rw [if_neg hin]
      exact houtside (tex.height - 1 - j) i (by omega)

/-- Witness for C5 at the tested scenario: a 16x16 texture, sub-rectangle
at (2, 10) of size 10x2, stride 20, buffer offset `10*20 + 2`. -/
theorem transferPixels_partial_update_witness :
    (2 : Nat) + 10 ≤ (Texture.mk 16 16 fun _ _ => 1).width ∧
    (10 : Nat) + 2 ≤ (Texture.mk 16 16 fun _ _ => 1).height ∧
    ∃ tex1,
      transferPixels true (Texture.mk 16 16 fun _ _ => 1) 2 10 10 2
          (fun _ => 3) 202 20 = some tex1 ∧
      (∀ r c, (r < 10 ∨ 10 + 2 ≤ r ∨ c < 2 ∨ 2 + 10 ≤ c) →
        tex1.pixels r c = (Texture.mk 16 16 fun _ _ => 1).pixels r c) ∧
      (∀ r c, 10 ≤ r → r < 10 + 2 → 2 ≤ c → c < 2 + 10 →
        tex1.pixels r c = (fun _ => (3 : GrColor)) (202 + (r - 10) * 20 + (c - 2))) ∧
      (∀ origin (dst0 : Nat → GrColor), (16 : Nat) ≤ 20 → (0 : Nat) < 20 →
        ∃ dst,
          readPixels tex1 origin 0 0 16 16 dst0 20 = some dst ∧
          ∀ j i, j < 16 → i < 16 →
            dst (j * 20 + i) =
              (fun pr =>
                if 10 ≤ pr ∧ pr < 10 + 2 ∧ 2 ≤ i ∧ i < 2 + 10
                then (fun _ => (3 : GrColor)) (202 + (pr - 10) * 20 + (i - 2))
                else (Texture.mk 16 16 fun _ _ => (1 : GrColor)).pixels pr i)
              (match origin with
               | GrSurfaceOrigin.kTopLeft_GrSurfaceOrigin => j
               | GrSurfaceOrigin.kBottomLeft_GrSurfaceOrigin => 16 - 1 - j)) :=
  ⟨by decide, by decide,
    transferPixels_partial_update (Texture.mk 16 16 fun _ _ => 1) 2 10 10 2
      (fun _ => 3) 202 20 (by decide) (by decide)⟩

/-- Claim C6: when `rowPitch` exceeds the logical row width, the bytes of
each row beyond the row width are ignored on the read side — two source
buffers agreeing on the logical entries of every row produce the same
transfer — and left untouched on the write side: `readPixels` never writes
a destination entry in a padding column. -/
theorem rowPitch_padding (tex : Texture) (x y width height offset rowPitch : Nat)
    (buffer1 buffer2 : Nat → GrColor) (origin : GrSurfaceOrigin)
    (dst0 : Nat → GrColor)
    (hagree : ∀ j i, j < height → i < width →
      buffer1 (offset + j * rowPitch + i) = buffer2 (offset + j * rowPitch + i)) :
    transferPixels true tex x y width height buffer1 offset rowPitch =
      transferPixels true tex x y width height buffer2 offset rowPitch ∧
    ∀ dst, readPixels tex origin x y width height dst0 rowPitch = some dst →
      ∀ idx, width ≤ idx % rowPitch → dst idx = dst0 idx := by
  constructor
  · unfold transferPixels
    by_cases hc : (true = true ∧ x + width ≤ tex.width ∧ y + height ≤ tex.height)
    · rw [if_pos hc, if_pos hc]
      refine congrArg some (congrArg (Texture.mk tex.width tex.height) ?_)
      funext r c
      by_cases hin : (y ≤ r ∧ r < y + height ∧ x ≤ c ∧ c < x + width)
      · rw [if_pos hin, if_pos hin]
        exact hagree (r - y) (c - x) (by omega) (by omega)
      · rw [if_neg hin, if_neg hin]
    · rw [if_neg hc, if_neg hc]
  · intro dst hread idx hpad
    unfold readPixels at hread
    by_cases hb : (x + width ≤ tex.width ∧ y + height ≤ tex.height)
    · rw [if_pos hb] at hread
      rw [← Option.some.inj hread]
      exact if_neg fun hcond => absurd hcond.1 (by omega)
    · rw [if_neg hb] at hread
      simp at hread

/-- Witness for C6 at a concrete input: two buffers that differ only in the
padding column of a 1x1 rectangle under stride 2. -/
theorem rowPitch_padding_witness :
    (∀ j i : Nat, j < 1 → i < 1 →
      (fun n => if n = 1 then 8 else 0 : Nat → GrColor) (0 + j * 2 + i) =
        (fun _ => (0 : GrColor)) (0 + j * 2 + i)) ∧
    (transferPixels true (Texture.mk 1 1 fun _ _ => 5) 0 0 1 1
        (fun n => if n = 1 then 8 else 0) 0 2 =
      transferPixels true (Texture.mk 1 1 fun _ _ => 5) 0 0 1 1
        (fun _ => 0) 0 2 ∧
    ∀ dst, readPixels (Texture.mk 1 1 fun _ _ => 5)
        GrSurfaceOrigin.kTopLeft_GrSurfaceOrigin 0 0 1 1 (fun _ => 4) 2 =
        some dst →
      ∀ idx, 1 ≤ idx % 2 → dst idx = (fun _ => (4 : GrColor)) idx) :=
  ⟨fun j i hj hi => by interval_cases j; interval_cases i; rfl,
    rowPitch_padding (Texture.mk 1 1 fun _ _ => 5) 0 0 1 1 0 2
      (fun n => if n = 1 then 8 else 0) (fun _ => 0)
      GrSurfaceOrigin.kTopLeft_GrSurfaceOrigin (fun _ => 4)
      (fun j i hj hi => by interval_cases j; interval_cases i; rfl)⟩

/-- Claim C8: `transferPixels` returns false — modelled as `none`, with the
texture unchanged, and by totality of the embedding without raising any
error — whenever the target format cannot accept a mapped-buffer-sourced
transfer or the requested rectangle lies outside the texture bounds. -/
theorem transferPixels_failure (caps : Bool) (tex : Texture)
    (x y width height : Nat) (buffer : Nat → GrColor)
    (offset rowPitch : Nat)
    (h : caps = false ∨ tex.width < x + width ∨ tex.height < y + height) :
    transferPixels caps tex x y width height buffer offset rowPitch = none := by
  have hneg : ¬(caps = true ∧ x + width ≤ tex.width ∧ y + height ≤ tex.height) := by
    rintro ⟨hc, hx2, hy2⟩
    rcases h with h | h | h
    · rw [h] at hc
      exact Bool.noConfusion hc
    · omega
    · omega
  unfold transferPixels
  rw [if_neg hneg]

/-- Witness for C8 at a concrete input: a rectangle extending past the
right edge of a 4x4 texture. -/
theorem transferPixels_failure_witness :
    ((true = false) ∨ (Texture.mk 4 4 fun _ _ => 0).width < 2 + 4 ∨
      (Texture.mk 4 4 fun _ _ => 0).height < 0 + 4) ∧
    transferPixels true (Texture.mk 4 4 fun _ _ => 0) 2 0 4 4 (fun _ => 1) 0 5 =
      none :=
  ⟨Or.inr (Or.inl (by decide)),
    transferPixels_failure true (Texture.mk 4 4 fun _ _ => 0) 2 0 4 4
      (fun _ => 1) 0 5 (Or.inr (Or.inl (by decide)))⟩
